import Mathlib

/-!
Shallow embedding of `scholar_scraping.py`, a Google Scholar scraper.

The program paginates through listing pages, extracts author profile links
via regex search, and for each author fetches a profile and persists a
directory with a picture and a text summary.  Pure string processing and
the citation aggregators are translated directly; the external
collaborators (HTTP fetch, the `scholarly` author lookup, filesystem
success or failure of `os.mkdir` and image download) are modelled as an
explicit environment, and the filesystem as an association list from
directory paths to the artifacts they contain.
-/

/-- Python strings are modelled as lists of characters. -/
abbrev Chars := List Char

/-- The Python exception kinds that the program's control flow distinguishes. -/
inductive PyErr where
  | valueError
  | keyError
  | indexError
  | fileNotFound
  | netError
deriving DecidableEq, Repr

deriving instance DecidableEq for Except

/-! ### String utilities (Python `in`, `str.index`, `str.replace`, slicing) -/

/-- Whether `p` is a literal prefix of `s` (no wildcard). -/
def startsWithLit : Chars → Chars → Bool
  | [], _ => true
  | _ :: _, [] => false
  | p :: ps, c :: cs => p = c && startsWithLit ps cs

/-- Python's `pat in s`: substring containment. -/
def containsLit : Chars → Chars → Bool
  | s, pat =>
    if startsWithLit pat s then true
    else
      match s with
      | [] => false
      | _ :: cs => containsLit cs pat

/-- Python's `s.index(pat)`: index of the first occurrence of `pat` in `s`,
`none` when there is no occurrence (where Python raises `ValueError`). -/
def pyIndexOf : Chars → Chars → Option Nat
  | s, pat =>
    if startsWithLit pat s then some 0
    else
      match s with
      | [] => none
      | _ :: cs => (pyIndexOf cs pat).map (· + 1)

/-- One step of Python's `s.replace(pat, rep)` with explicit fuel; the fuel
is always instantiated to more than the length of `s`, so it never runs out. -/
def replaceAllGo (pat rep : Chars) : Nat → Chars → Chars
  | 0, s => s
  | fuel + 1, s =>
    if pat ≠ [] ∧ startsWithLit pat s then
      rep ++ replaceAllGo pat rep fuel (s.drop pat.length)
    else
      match s with
      | [] => []
      | c :: cs => c :: replaceAllGo pat rep fuel cs

/-- Python's `s.replace(pat, rep)`: replace every non-overlapping occurrence,
scanning left to right. -/
def replaceAll (s pat rep : Chars) : Chars :=
  replaceAllGo pat rep (s.length + 1) s

/-- Python's slice `s[1:-3]`: drop the first character and the last three. -/
def pySlice1m3 (s : Chars) : Chars :=
  (s.drop 1).take (s.length - 4)

/-! ### `re.findall` for the two patterns of the source

Both regexes in the source have the shape `pre(.+?)post` where `pre` and
`post` are literal except that `.` matches any character other than a
newline (the one `.` in `window.location=` is such a wildcard).  `findall`
scans left to right, at each position matching `pre`, then the shortest
non-empty newline-free capture followed by `post`, returning the capture
and continuing after the end of the whole match (non-overlapping). -/

/-- Match the pattern `p` (literal, with `.` as any-character-but-newline)
at the start of `s`, returning the rest of `s` on success. -/
def matchPat : Chars → Chars → Option Chars
  | [], s => some s
  | _ :: _, [] => none
  | p :: ps, c :: cs =>
    if (if p = '.' then c ≠ '\n' else p = c) then matchPat ps cs else none

/-- Find the shortest non-empty newline-free capture at the start of `s`
after which `post` matches; returns the capture and the rest after `post`. -/
def findCapture (post : Chars) : Chars → Option (Chars × Chars)
  | [] => none
  | c :: cs =>
    if c = '\n' then none
    else
      match matchPat post cs with
      | some rest => some ([c], rest)
      | none =>
        match findCapture post cs with
        | some (cap, rest) => some (c :: cap, rest)
        | none => none

/-- Try to match `pre (.+?) post` at the start of `s`. -/
def tryMatchAt (pre post s : Chars) : Option (Chars × Chars) :=
  match matchPat pre s with
  | none => none
  | some s1 => findCapture post s1

/-- Fueled scan of `re.findall`; the fuel is instantiated to more than the
length of the string, which always suffices since every step consumes at
least one character. -/
def findallGo (pre post : Chars) : Nat → Chars → List Chars
  | 0, _ => []
  | fuel + 1, s =>
    match tryMatchAt pre post s with
    | some (cap, rest) => cap :: findallGo pre post fuel rest
    | none =>
      match s with
      | [] => []
      | _ :: cs => findallGo pre post fuel cs

/-- `re.findall('pre(.+?)post', s)`: the list of captures, in document order. -/
def findall (pre post s : Chars) : List Chars :=
  findallGo pre post (s.length + 1) s

/-! ### Constants of the source -/

/-- Source constant `GOOGLE_SCHOLAR_URL_PREFIX`. -/
def GOOGLE_SCHOLAR_URL_START : Chars := "https://scholar.google.com/".toList

/-- Literal part of `REGEX_TO_FIND_AUTHOR_NAME` before the capture group. -/
def AUTHOR_NAME_PRE : Chars := "gs_ai_name\"><a href=\"".toList

/-- Literal part of `REGEX_TO_FIND_AUTHOR_NAME` after the capture group. -/
def AUTHOR_NAME_POST : Chars := "\">".toList

/-- Part of `REGEX_TO_FIND_NEXT_PAGE` before the capture group (its `.` is a
regex wildcard). -/
def NEXT_PAGE_PRE : Chars := "window.location=".toList

/-- Literal part of `REGEX_TO_FIND_NEXT_PAGE` after the capture group. -/
def NEXT_PAGE_POST : Chars := "type=\"button\"".toList

/-- Host prefixed to the decoded next-page link in `next_page`. -/
def NEXT_PAGE_HOST : Chars := "https://scholar.google.co.il".toList

/-- The forward-pagination token `'after'`. -/
def AFTER_TOKEN : Chars := "after".toList

/-- The escaped `=` literal `"\\x3d"` searched by `next_page`. -/
def X3D_TOKEN : Chars := "\\x3d".toList

/-- The escaped `&` literal `"\\x26"` searched by `next_page`. -/
def X26_TOKEN : Chars := "\\x26".toList

/-- The marker `"user="` searched by `get_author_id`. -/
def USER_MARKER : Chars := "user=".toList

/-- The path separator `\\` used when building the author directory path. -/
def PATH_SEP : Chars := "\\".toList

/-! ### `next_page` and `get_author_id` -/

/-- Source `next_page(soup)`: among the findall matches keep the last one
containing `'after'`; if none does, raise `ValueError`; otherwise strip
`[1:-3]`, decode `\\x3d` to `=` and `\\x26` to `&`, and prefix the host. -/
def next_page (soup : Chars) : Except PyErr Chars :=
  let result := findall NEXT_PAGE_PRE NEXT_PAGE_POST soup
  let next_page_link := result.foldl (fun acc r => if containsLit r AFTER_TOKEN then r else acc) []
  if next_page_link = ([] : Chars) then
    Except.error PyErr.valueError
  else
    Except.ok (NEXT_PAGE_HOST ++ replaceAll (replaceAll (pySlice1m3 next_page_link) X3D_TOKEN
      ("=".toList)) X26_TOKEN ("&".toList))

/-- Source `get_author_id(link)`: `link[link.index("user=") + len("user="):]`;
`str.index` raises `ValueError` when the marker is absent. -/
def get_author_id (link : Chars) : Except PyErr Chars :=
  match pyIndexOf link USER_MARKER with
  | none => Except.error PyErr.valueError
  | some i => Except.ok (link.drop (i + USER_MARKER.length))

/-! ### Citation Aggregator -/

/-- Loop of `get_num_of_first_10_years_citations`: accumulate `total` and a
counter `i`, breaking once `i` reaches 10 after adding a value. -/
def gnf10Go : List Int → Int → Nat → Int
  | [], total, _ => total
  | v :: rest, total, i =>
    let total1 := total + v
    let i1 := i + 1
    if i1 ≥ 10 then total1 else gnf10Go rest total1 i1

/-- Source `get_num_of_first_10_years_citations(citations)`: sum of the
first ten values of the year-to-count series in insertion order.  The dict
is modelled as an association list ordered as the dict's insertion order. -/
def get_num_of_first_10_years_citations (citations : List (Int × Int)) : Int :=
  gnf10Go (citations.map Prod.snd) 0 0

/-- Loop of `get_num_of_citations_since_n_citations`: while `check < n`,
add values into `check`; from the first value at which `check ≥ n` holds,
add values into `total` instead, breaking after ten of them. -/
def gncsnGo (n : Int) : List Int → Int → Int → Nat → Int
  | [], _check, total, _i => total
  | v :: rest, check, total, i =>
    if check ≥ n then
      let total1 := total + v
      let i1 := i + 1
      if i1 ≥ 10 then total1 else gncsnGo n rest check total1 i1
    else
      gncsnGo n rest (check + v) total i

/-- Source `get_num_of_citations_since_n_citations(citations, n)`. -/
def get_num_of_citations_since_n_citations (citations : List (Int × Int)) (n : Int) : Int :=
  gncsnGo n (citations.map Prod.snd) 0 0 0

/-- Spec-side description of `sum_after_threshold` (claim C3's wording):
scan the series in order accumulating a running prefix sum; once the prefix
sum reaches or exceeds the threshold, return the sum of the subsequent
values — the threshold-triggering value itself excluded — up to ten of
them; if the prefix sum never reaches the threshold, return 0. -/
def sum_after_threshold_spec_go (n : Int) : List Int → Int → Int
  | [], _acc => 0
  | v :: rest, acc =>
    if acc ≥ n then ((v :: rest).take 10).sum
    else sum_after_threshold_spec_go n rest (acc + v)

/-- Spec-side `sum_after_threshold(series, threshold)` per its natural
language description, over the values of the series in insertion order. -/
def sum_after_threshold_spec (citations : List (Int × Int)) (n : Int) : Int :=
  sum_after_threshold_spec_go n (citations.map Prod.snd) 0

/-! ### Data model: author profile, filesystem, environment -/

/-- The fetched author record, a loosely-typed Python dict: every field a
claim touches is optional except `name` (accessing an absent key raises
`KeyError`).  The citation series `cites_per_year` is an ordered
year-to-count association list (the dict's insertion order). -/
structure AuthorProfile where
  name : Chars
  affiliation : Option Chars
  interests : Option (List Chars)
  citedby : Option Int
  citedby5y : Option Int
  hindex : Option Int
  i10index : Option Int
  coauthors : Option (List Chars)
  cites_per_year : Option (List (Int × Int))
  url_picture : Option Chars
deriving DecidableEq, Repr

/-- Artifacts present inside one author directory: the picture file
`Author_picture.png` and the text file `Author_data.txt`. -/
structure DirContents where
  hasPicture : Bool
  hasData : Bool
deriving DecidableEq, Repr

/-- The destination tree: an association list from directory path to its
artifacts, in creation order. -/
abbrev FS := List (Chars × DirContents)

/-- Whether a directory at path `p` exists. -/
def dirExists (fs : FS) (p : Chars) : Bool :=
  fs.any (fun e => e.1 = p)

/-- `os.mkdir p`: append a fresh empty directory. -/
def fsMkdir (fs : FS) (p : Chars) : FS :=
  fs ++ [(p, ⟨false, false⟩)]

/-- Writing `Author_picture.png` inside directory `p`. -/
def fsSetPicture (fs : FS) (p : Chars) : FS :=
  fs.map (fun e => if e.1 = p then (e.1, ⟨true, e.2.hasData⟩) else e)

/-- Writing `Author_data.txt` inside directory `p`. -/
def fsSetData (fs : FS) (p : Chars) : FS :=
  fs.map (fun e => if e.1 = p then (e.1, ⟨e.2.hasPicture, true⟩) else e)

/-- `shutil.rmtree p`: recursively delete the directory at `p`. -/
def fsRmtree (fs : FS) (p : Chars) : FS :=
  fs.filter (fun e => ¬ e.1 = p)

/-- The external collaborators: the scholarly author lookup (which may
raise), whether `os.mkdir` fails for a reason other than the directory
already existing, whether the picture download and write succeed, and the
page fetch `requests.get` composed with `str(BeautifulSoup(...))`. -/
structure Env where
  lookup : Chars → Except PyErr AuthorProfile
  mkdirFails : Bool
  picOk : Bool
  fetch : Chars → Chars

/-! ### Author Extractor: `new_folder` and `create_profile` -/

/-- Source `new_folder(path)`: `os.mkdir`; `FileExistsError` is logged and
treated as success; any other creation failure is logged and reported as
failure (the directory is not created). -/
def new_folder (env : Env) (fs : FS) (p : Chars) : FS × Bool :=
  if dirExists fs p then (fs, true)
  else if env.mkdirFails then (fs, false)
  else (fsMkdir fs p, true)

/-- Picture step of `create_profile` (the first `try` block): an absent
`url_picture` key raises `KeyError`, which is caught and logged
(continue); with the key present, a failing download or write hits the
bare `except` and the author is aborted (`false`), the directory as-is. -/
def savePicture (env : Env) (author : AuthorProfile) (fs : FS) (p : Chars) : FS × Bool :=
  match author.url_picture with
  | none => (fs, true)
  | some _ => if env.picOk then (fsSetPicture fs p, true) else (fs, false)

/-- Whether every field accessed when building the `Author_data.txt` line
list is present (a missing one raises an uncaught `KeyError`). -/
def dataFieldsPresent (a : AuthorProfile) : Bool :=
  a.affiliation.isSome && a.interests.isSome && a.citedby.isSome && a.citedby5y.isSome &&
    a.hindex.isSome && a.i10index.isSome && a.coauthors.isSome

/-- Final step of `create_profile`: building the line list accesses the
remaining fields (uncaught `KeyError` if absent), then `writelines` writes
the text artifact, then `list(author["cites_per_year"])[-1]` raises an
uncaught `IndexError` when the series is empty — after the write. -/
def saveData (author : AuthorProfile) (cpy : List (Int × Int)) (fs : FS) (p : Chars) :
    FS × Except PyErr Bool :=
  if dataFieldsPresent author then
    let fs1 := fsSetData fs p
    match cpy.getLast? with
    | none => (fs1, Except.error PyErr.indexError)
    | some _ => (fs1, Except.ok true)
  else (fs, Except.error PyErr.keyError)

/-- Source `create_profile(profile_link, path)`: resolve the author id,
fetch the profile, create the author directory (`false` on creation
failure), attempt the picture (`false` on a non-`KeyError` failure,
directory as-is), roll the directory back and return `false` when the
citation series is absent, and finally write the text artifact.  The
second component is `Except.error` exactly when an exception escapes. -/
def create_profile (env : Env) (profile_link path : Chars) (fs : FS) : FS × Except PyErr Bool :=
  match get_author_id profile_link with
  | Except.error e => (fs, Except.error e)
  | Except.ok author_id =>
    match env.lookup author_id with
    | Except.error e => (fs, Except.error e)
    | Except.ok author =>
      let cur_folder_path := path ++ PATH_SEP ++ author.name
      match new_folder env fs cur_folder_path with
      | (fs1, false) => (fs1, Except.ok false)
      | (fs1, true) =>
        match savePicture env author fs1 cur_folder_path with
        | (fs2, false) => (fs2, Except.ok false)
        | (fs2, true) =>
          match author.cites_per_year with
          | none => (fsRmtree fs2 cur_folder_path, Except.ok false)
          | some cpy =>
            let _ten_year := get_num_of_first_10_years_citations cpy
            let _ten_year_since_100 := get_num_of_citations_since_n_citations cpy 100
            let _ten_year_since_500 := get_num_of_citations_since_n_citations cpy 500
            saveData author cpy fs2 cur_folder_path

/-! ### Page Extractor and Paginator -/

/-- Observable events of a run: a page fetch during the skip phase, a page
fetch during the load phase, and the dispatch of one author link to
`create_profile`. -/
inductive Event where
  | fetchSkip (url : Chars)
  | fetchLoad (url : Chars)
  | author (link : Chars)
deriving DecidableEq, Repr

/-- Run state: the destination tree plus the event log. -/
structure St where
  fs : FS
  log : List Event
deriving DecidableEq, Repr

/-- The author links of one listing page: each findall capture of the
author-name regex, prefixed with `GOOGLE_SCHOLAR_URL_PREFIX`. -/
def extractAuthorLinks (soup : Chars) : List Chars :=
  (findall AUTHOR_NAME_PRE AUTHOR_NAME_POST soup).map
    (fun tail => GOOGLE_SCHOLAR_URL_START ++ tail)

/-- Dispatch loop of `load_10_researchers`: each link is passed to
`create_profile`; `FileNotFoundError` is caught and logged, and the loop
continues; any other escaping exception propagates, aborting the page. -/
def load10Go (env : Env) (output_dir : Chars) : List Chars → St → St × Except PyErr Unit
  | [], st => (st, Except.ok ())
  | link :: rest, st =>
    let st1 : St := ⟨st.fs, st.log ++ [Event.author link]⟩
    match create_profile env link output_dir st1.fs with
    | (fs2, Except.error PyErr.fileNotFound) => load10Go env output_dir rest ⟨fs2, st1.log⟩
    | (fs2, Except.error e) => (⟨fs2, st1.log⟩, Except.error e)
    | (fs2, Except.ok _) => load10Go env output_dir rest ⟨fs2, st1.log⟩

/-- Source `load_10_researchers(soup, output_dir)`. -/
def load_10_researchers (env : Env) (soup output_dir : Chars) (st : St) :
    St × Except PyErr Unit :=
  load10Go env output_dir (extractAuthorLinks soup) st

/-- Source `load_n_pages(url, n, output_dir)`: for each of `n` iterations,
fetch the page, process all its authors, then resolve the next-page link —
also on the last iteration, where the result is unused. -/
def load_n_pages (env : Env) : Chars → Nat → Chars → St → St × Except PyErr Unit
  | _url, 0, _output_dir, st => (st, Except.ok ())
  | url, n + 1, output_dir, st =>
    let soup := env.fetch url
    let st1 : St := ⟨st.fs, st.log ++ [Event.fetchLoad url]⟩
    match load_10_researchers env soup output_dir st1 with
    | (st2, Except.error e) => (st2, Except.error e)
    | (st2, Except.ok _) =>
      match next_page soup with
      | Except.error e => (st2, Except.error e)
      | Except.ok url1 => load_n_pages env url1 n output_dir st2

/-- Source `skip_n_pages(url, n, k, output_dir)`: `n` iterations that fetch
a page and only resolve its next-page link, then `load_n_pages` for `k`. -/
def skip_n_pages (env : Env) : Chars → Nat → Nat → Chars → St → St × Except PyErr Unit
  | url, 0, k, output_dir, st => load_n_pages env url k output_dir st
  | url, n + 1, k, output_dir, st =>
    let soup := env.fetch url
    let st1 : St := ⟨st.fs, st.log ++ [Event.fetchSkip url]⟩
    match next_page soup with
    | Except.error e => (st1, Except.error e)
    | Except.ok url1 => skip_n_pages env url1 n k output_dir st1

/-- The events of one fully processed load-phase page: its fetch followed
by the dispatch of each of its author links. -/
def loadBlock (env : Env) (url : Chars) : List Event :=
  Event.fetchLoad url :: (extractAuthorLinks (env.fetch url)).map Event.author

/-- Drive `k` complete load-phase iterations (fetch, process all authors,
resolve next page), returning the url and state reached when none of them
failed. -/
def loadSteps (env : Env) (output_dir : Chars) : Nat → Chars → St → Option (Chars × St)
  | 0, url, st => some (url, st)
  | k + 1, url, st =>
    let soup := env.fetch url
    let st1 : St := ⟨st.fs, st.log ++ [Event.fetchLoad url]⟩
    match load_10_researchers env soup output_dir st1 with
    | (_, Except.error _) => none
    | (st2, Except.ok _) =>
      match next_page soup with
      | Except.error _ => none
      | Except.ok url1 => loadSteps env output_dir k url1 st2

/-! ### Theorems: Citation Aggregator (claims C7 and C3) -/

/-- Once the counter is below ten, `gnf10Go` adds exactly the next
`10 - i` values. -/
theorem gnf10Go_eq_take (vals : List Int) : ∀ (total : Int) (i : Nat), i < 10 →
    gnf10Go vals total i = total + ((vals.take (10 - i)).sum) := by
  induction vals with
  | nil => intro total i _; simp [gnf10Go]
  | cons v rest ih =>
    intro total i hi
    by_cases h : i + 1 ≥ 10
    · have h9 : i = 9 := by omega
      subst h9
      simp [gnf10Go, List.take_succ_cons]
    · have h10 : 10 - i = (10 - (i + 1)) + 1 := by omega
      simp only [gnf10Go, if_neg h]
      rw [ih (total + v) (i + 1) (by omega), h10, List.take_succ_cons, List.sum_cons]
      ring

/-- Claim C7: `get_num_of_first_10_years_citations` returns the sum of the
first ten values of the series in insertion order (hence is independent of
any value beyond the tenth), and for a series of fewer than ten entries it
returns the sum of all values. -/
theorem get_num_of_first_10_years_citations_spec (citations : List (Int × Int)) :
    get_num_of_first_10_years_citations citations = (((citations.map Prod.snd).take 10).sum)
    ∧ ((citations.map Prod.snd).length < 10 →
        get_num_of_first_10_years_citations citations = ((citations.map Prod.snd).sum)) := by
  have h1 : get_num_of_first_10_years_citations citations
      = (((citations.map Prod.snd).take 10).sum) := by
    unfold get_num_of_first_10_years_citations
    rw [gnf10Go_eq_take (citations.map Prod.snd) 0 0 (by omega)]
    simp
  refine ⟨h1, fun hlen => ?_⟩
  rw [h1, List.take_of_length_le (by omega)]

/-- Witness: on a two-entry series the sum of all values is returned. -/
theorem get_num_of_first_10_years_citations_spec_witness :
    get_num_of_first_10_years_citations [((2000 : Int), (1 : Int)), ((2001 : Int), (2 : Int))]
      = 3 := by
  have h := (get_num_of_first_10_years_citations_spec
    [((2000 : Int), (1 : Int)), ((2001 : Int), (2 : Int))]).2 (by decide)
  exact h.trans (by decide)

/-- In the accumulation phase (`check ≥ n` stays true since `check` is no
longer updated), `gncsnGo` adds exactly the next `10 - i` values. -/
theorem gncsnGo_phase2 (n : Int) (vals : List Int) : ∀ (check total : Int) (i : Nat),
    check ≥ n → i < 10 →
    gncsnGo n vals check total i = total + ((vals.take (10 - i)).sum) := by
  induction vals with
  | nil => intro check total i _ _; simp [gncsnGo]
  | cons v rest ih =>
    intro check total i hc hi
    by_cases h : i + 1 ≥ 10
    · have h9 : i = 9 := by omega
      subst h9
      simp [gncsnGo, if_pos hc, List.take_succ_cons]
    · have h10 : 10 - i = (10 - (i + 1)) + 1 := by omega
      simp only [gncsnGo, if_pos hc, if_neg h]
      rw [ih check (total + v) (i + 1) hc (by omega), h10, List.take_succ_cons, List.sum_cons]
      ring

/-- The loop of the source function agrees with the spec-side scan for any
running prefix sum `check`. -/
theorem gncsnGo_eq_spec (n : Int) (vals : List Int) : ∀ (check : Int),
    gncsnGo n vals check 0 0 = sum_after_threshold_spec_go n vals check := by
  induction vals with
  | nil => intro check; simp [gncsnGo, sum_after_threshold_spec_go]
  | cons v rest ih =>
    intro check
    by_cases hc : check ≥ n
    · simp only [gncsnGo, sum_after_threshold_spec_go, if_pos hc]
      simp only [zero_add, Nat.zero_add, List.take_succ_cons, List.sum_cons]
      rw [gncsnGo_phase2 n rest check v 1 hc (by omega)]
      norm_num
    · simp only [gncsnGo, sum_after_threshold_spec_go, if_neg hc]
      exact ih (check + v)

/-- When every prefix of the series keeps the running sum below the
threshold, the spec-side scan yields 0. -/
theorem sum_after_threshold_spec_go_never (n : Int) (vals : List Int) : ∀ (acc : Int),
    (∀ k : Nat, acc + ((vals.take k).sum) < n) →
    sum_after_threshold_spec_go n vals acc = 0 := by
  induction vals with
  | nil => intro acc _; simp [sum_after_threshold_spec_go]
  | cons v rest ih =>
    intro acc hlt
    have hacc : ¬ acc ≥ n := by
      have h0 := hlt 0
      simp at h0
      omega
    simp only [sum_after_threshold_spec_go, if_neg hacc]
    refine ih (acc + v) (fun k => ?_)
    have hk := hlt (k + 1)
    rw [List.take_succ_cons, List.sum_cons] at hk
    omega

/-- Claim C3: `get_num_of_citations_since_n_citations` scans the series in
order accumulating a running prefix sum; once the prefix sum reaches or
exceeds the threshold it sums the subsequent values — the
threshold-triggering value itself excluded — for up to ten entries
(`sum_after_threshold_spec` states exactly this); and when the prefix sum
over the whole series never reaches the threshold it returns 0. -/
theorem get_num_of_citations_since_n_citations_spec (citations : List (Int × Int)) (n : Int) :
    get_num_of_citations_since_n_citations citations n = sum_after_threshold_spec citations n
    ∧ ((∀ k : Nat, (((citations.map Prod.snd).take k).sum) < n) →
        get_num_of_citations_since_n_citations citations n = 0) := by
  have h1 : get_num_of_citations_since_n_citations citations n
      = sum_after_threshold_spec citations n := by
    unfold get_num_of_citations_since_n_citations sum_after_threshold_spec
    exact gncsnGo_eq_spec n (citations.map Prod.snd) 0
  refine ⟨h1, fun hlt => ?_⟩
  rw [h1]
  unfold sum_after_threshold_spec
  refine sum_after_threshold_spec_go_never n (citations.map Prod.snd) 0 (fun k => ?_)
  have := hlt k
  omega

/-- Witness: a single value of 5 never reaches the threshold 100, so the
result is 0. -/
theorem get_num_of_citations_since_n_citations_spec_witness :
    get_num_of_citations_since_n_citations [((1 : Int), (5 : Int))] 100 = 0 :=
  (get_num_of_citations_since_n_citations_spec [((1 : Int), (5 : Int))] 100).2 (by
    intro k
    match k with
    | 0 => decide
    | k + 1 => simp [List.take_succ_cons])

/-! ### Theorems: next-page resolution (claim C4) -/

/-- Prepending an element to a non-empty-or-not list: the defaulted last
element ignores the default once the list is headed by `r`. -/
theorem getLast?_getD_cons {α : Type} (l : List α) (r acc : α) :
    ((r :: l).getLast?).getD acc = (l.getLast?).getD r := by
  induction l generalizing r acc with
  | nil => simp
  | cons a l ih =>
    rw [List.getLast?_cons_cons]
    rw [ih a acc, ih a r]

/-- The source's select-loop (`for r in result: if 'after' in r: keep r`)
computes the last element passing the test, with the initial accumulator as
default. -/
theorem foldl_pick_last (p : Chars → Bool) (l : List Chars) : ∀ acc : Chars,
    l.foldl (fun a r => if p r then r else a) acc = ((l.filter p).getLast?).getD acc := by
  induction l with
  | nil => intro acc; simp
  | cons r rest ih =>
    intro acc
    by_cases hp : p r = true
    · rw [List.foldl_cons, if_pos hp, List.filter_cons_of_pos hp, ih r, getLast?_getD_cons]
    · rw [List.foldl_cons, if_neg hp, List.filter_cons_of_neg (by simpa using hp), ih acc]

/-- The empty string does not contain `'after'`. -/
theorem containsLit_nil_after : containsLit [] AFTER_TOKEN = false := by decide

/-- Claim C4: `next_page` selects, among the findall matches of the
next-page pattern, the (last) one containing the `'after'` token, trims the
wrapper characters (`[1:-3]`), decodes `\x3d` to `=` and `\x26` to `&`, and
prefixes the base navigation host; when no match contains the token it
raises `ValueError` instead of returning an empty or silent result. -/
theorem next_page_spec (soup : Chars) :
    next_page soup =
      match ((findall NEXT_PAGE_PRE NEXT_PAGE_POST soup).filter
          (fun r => containsLit r AFTER_TOKEN)).getLast? with
      | none => Except.error PyErr.valueError
      | some m => Except.ok (NEXT_PAGE_HOST ++ replaceAll (replaceAll (pySlice1m3 m) X3D_TOKEN
          ("=".toList)) X26_TOKEN ("&".toList)) := by
  simp only [next_page]
  rw [foldl_pick_last (fun r => containsLit r AFTER_TOKEN)
    (findall NEXT_PAGE_PRE NEXT_PAGE_POST soup) []]
  cases hlast : ((findall NEXT_PAGE_PRE NEXT_PAGE_POST soup).filter
      (fun r => containsLit r AFTER_TOKEN)).getLast? with
  | none => simp
  | some m =>
    have hmem : m ∈ (findall NEXT_PAGE_PRE NEXT_PAGE_POST soup).filter
        (fun r => containsLit r AFTER_TOKEN) := List.mem_of_getLast?_eq_some hlast
    have hcontains : containsLit m AFTER_TOKEN = true := (List.mem_filter.mp hmem).2
    have hne : m ≠ ([] : Chars) := by
      intro h
      rw [h, containsLit_nil_after] at hcontains
      exact Bool.false_ne_true hcontains
    simp [hne]

/-! ### Theorems: author id extraction (claim C10) -/

/-- `str.index` fails exactly when the substring test fails. -/
theorem pyIndexOf_eq_none_iff (pat : Chars) : ∀ s : Chars,
    pyIndexOf s pat = none ↔ containsLit s pat = false := by
  intro s
  induction s with
  | nil =>
    rw [pyIndexOf, containsLit]
    by_cases h : startsWithLit pat []
    · simp [h]
    · simp [h]
  | cons c cs ih =>
    rw [pyIndexOf, containsLit]
    by_cases h : startsWithLit pat (c :: cs)
    · simp [h]
    · simp only [if_neg h]
      rw [Option.map_eq_none']
      exact ih

/-- A successful `str.index` returns the index of an occurrence that is the
first one: the pattern matches there and at no earlier position. -/
theorem pyIndexOf_spec (pat : Chars) : ∀ (s : Chars) (i : Nat),
    pyIndexOf s pat = some i →
    startsWithLit pat (s.drop i) = true ∧
      ∀ j : Nat, j < i → startsWithLit pat (s.drop j) = false := by
  intro s
  induction s with
  | nil =>
    intro i h
    rw [pyIndexOf] at h
    by_cases hs : startsWithLit pat []
    · rw [if_pos hs] at h
      cases h
      exact ⟨hs, fun j hj => absurd hj (by omega)⟩
    · rw [if_neg hs] at h
      cases h
  | cons c cs ih =>
    intro i h
    rw [pyIndexOf] at h
    by_cases hs : startsWithLit pat (c :: cs)
    · rw [if_pos hs] at h
      cases h
      exact ⟨hs, fun j hj => absurd hj (by omega)⟩
    · rw [if_neg hs] at h
      rw [Option.map_eq_some'] at h
      obtain ⟨i1, hi1, hadd⟩ := h
      subst hadd
      obtain ⟨h1, h2⟩ := ih i1 hi1
      refine ⟨by simpa using h1, fun j hj => ?_⟩
      match j with
      | 0 => simpa using (Bool.eq_false_iff.mpr hs)
      | j + 1 =>
        have : j < i1 := by omega
        simpa using h2 j this

/-- Claim C10: `get_author_id` is partial — for a link containing the
marker `"user="` it returns the substring strictly after the first
occurrence of the marker (5 characters past its position); for a link not
containing the marker it raises `ValueError`. -/
theorem get_author_id_spec (link : Chars) :
    (containsLit link USER_MARKER = true →
      ∃ i : Nat, startsWithLit USER_MARKER (link.drop i) = true ∧
        (∀ j : Nat, j < i → startsWithLit USER_MARKER (link.drop j) = false) ∧
        get_author_id link = Except.ok (link.drop (i + 5)))
    ∧ (containsLit link USER_MARKER = false →
        get_author_id link = Except.error PyErr.valueError) := by
  cases hidx : pyIndexOf link USER_MARKER with
  | none =>
    have hcf : containsLit link USER_MARKER = false := (pyIndexOf_eq_none_iff _ _).mp hidx
    constructor
    · intro hct
      rw [hcf] at hct
      exact absurd hct (by simp)
    · intro _
      unfold get_author_id
      rw [hidx]
  | some i =>
    constructor
    · intro _
      obtain ⟨h1, h2⟩ := pyIndexOf_spec USER_MARKER link i hidx
      refine ⟨i, h1, h2, ?_⟩
      unfold get_author_id
      rw [hidx]
      norm_num [USER_MARKER]
    · intro hcf
      have : pyIndexOf link USER_MARKER = none := (pyIndexOf_eq_none_iff _ _).mpr hcf
      rw [hidx] at this
      cases this

/-- Witness: a concrete profile link containing the marker. -/
theorem get_author_id_spec_witness :
    ∃ i : Nat,
      startsWithLit USER_MARKER
          (("https://scholar.google.com/citations?user=AA".toList).drop i) = true ∧
        (∀ j : Nat, j < i →
          startsWithLit USER_MARKER
            (("https://scholar.google.com/citations?user=AA".toList).drop j) = false) ∧
        get_author_id ("https://scholar.google.com/citations?user=AA".toList)
          = Except.ok (("https://scholar.google.com/citations?user=AA".toList).drop (i + 5)) :=
  (get_author_id_spec ("https://scholar.google.com/citations?user=AA".toList)).1 (by decide)

/-! ### Concrete example data for counterexamples and witnesses -/

/-- An author record with every field present and a non-empty citation
series. -/
def exAuthor : AuthorProfile :=
  { name := "Ann".toList
    affiliation := some "Uni".toList
    interests := some []
    citedby := some 10
    citedby5y := some 5
    hindex := some 3
    i10index := some 2
    coauthors := some []
    cites_per_year := some [(2000, 4), (2001, 6)]
    url_picture := some "http://pic".toList }

/-- A profile link containing the `"user="` marker. -/
def exLink : Chars := "https://scholar.google.com/citations?user=AA".toList

/-- A destination root. -/
def exOut : Chars := "out".toList

/-- The directory `create_profile` builds for `exAuthor` under `exOut`. -/
def exDir : Chars := exOut ++ PATH_SEP ++ "Ann".toList

/-- Environment in which the author lookup succeeds but the picture
download fails (a failure other than a missing picture field). -/
def envPicFail : Env :=
  { lookup := fun _ => Except.ok exAuthor
    mkdirFails := false
    picOk := false
    fetch := fun _ => [] }

/-- Environment whose author lacks the citation series and whose picture
download also fails. -/
def envNoCitesPicFail : Env :=
  { lookup := fun _ => Except.ok { exAuthor with cites_per_year := none }
    mkdirFails := false
    picOk := false
    fetch := fun _ => [] }

/-- Environment whose author lacks the citation series; everything else
succeeds. -/
def envNoCites : Env :=
  { lookup := fun _ => Except.ok { exAuthor with cites_per_year := none }
    mkdirFails := false
    picOk := true
    fetch := fun _ => [] }

/-- Environment whose author lacks only the picture URL field. -/
def envNoPic : Env :=
  { lookup := fun _ => Except.ok { exAuthor with url_picture := none }
    mkdirFails := false
    picOk := true
    fetch := fun _ => [] }

/-- Environment whose author lacks only the picture URL field and whose
citation series is present but empty. -/
def envEmptySeries : Env :=
  { lookup := fun _ => Except.ok { exAuthor with url_picture := none, cites_per_year := some [] }
    mkdirFails := false
    picOk := true
    fetch := fun _ => [] }

/-- Environment in which every author lookup raises a network error. -/
def envNetFail : Env :=
  { lookup := fun _ => Except.error PyErr.netError
    mkdirFails := false
    picOk := true
    fetch := fun _ => [] }

/-- Environment in which every author lookup raises the distinguished
not-found failure `FileNotFoundError`. -/
def envNotFound : Env :=
  { lookup := fun _ => Except.error PyErr.fileNotFound
    mkdirFails := false
    picOk := true
    fetch := fun _ => [] }

/-- A fully successful environment. -/
def envOk : Env :=
  { lookup := fun _ => Except.ok exAuthor
    mkdirFails := false
    picOk := true
    fetch := fun _ => [] }

/-- A listing page containing exactly one author-name anchor. -/
def soupOneAuthor : Chars := "gs_ai_name\"><a href=\"/citations?user=AA\">".toList

/-- The author link extracted from `soupOneAuthor` (note the doubled slash
the source produces by concatenation). -/
def exAuthorLink : Chars := GOOGLE_SCHOLAR_URL_START ++ "/citations?user=AA".toList

/-! ### Theorems: Author Extractor persistence (claims C5, C2, C6) -/

/-- After `shutil.rmtree p`, no directory at `p` exists. -/
theorem dirExists_fsRmtree (fs : FS) (p : Chars) : dirExists (fsRmtree fs p) p = false := by
  induction fs with
  | nil => rfl
  | cons e fs ih =>
    by_cases h : e.1 = p
    · simp [dirExists, fsRmtree, h]
    · simp [dirExists, fsRmtree, h]

/-- Claim C5 (amended): for an author whose extraction reaches the
derived-statistics step — the lookup succeeded, directory creation did not
fail, and the picture step did not abort (no picture field, or the download
succeeded) — a missing citation series makes `create_profile` delete the
author directory recursively and return failure, leaving no directory for
that author on disk. -/
theorem create_profile_missing_series_rollback (env : Env) (link path id : Chars)
    (author : AuthorProfile) (fs : FS)
    (hid : get_author_id link = Except.ok id)
    (hlk : env.lookup id = Except.ok author)
    (hmk : env.mkdirFails = false)
    (hcpy : author.cites_per_year = none)
    (hpic : author.url_picture = none ∨ env.picOk = true) :
    (create_profile env link path fs).2 = Except.ok false ∧
    dirExists (create_profile env link path fs).1 (path ++ PATH_SEP ++ author.name) = false := by
  simp only [create_profile, hid, hlk]
  simp only [new_folder, hmk, Bool.false_eq_true, if_false]
  by_cases hex : dirExists fs (path ++ PATH_SEP ++ author.name)
  · simp only [if_pos hex]
    rcases hpic with hup | hpt
    · simp only [savePicture, hup, hcpy]
      exact ⟨trivial, dirExists_fsRmtree _ _⟩
    · simp only [savePicture, hpt]
      cases hup : author.url_picture with
      | none => simp only [hcpy]; exact ⟨trivial, dirExists_fsRmtree _ _⟩
      | some u => simp only [if_true, hcpy]; exact ⟨trivial, dirExists_fsRmtree _ _⟩
  · simp only [if_neg hex]
    rcases hpic with hup | hpt
    · simp only [savePicture, hup, hcpy]
      exact ⟨trivial, dirExists_fsRmtree _ _⟩
    · simp only [savePicture, hpt]
      cases hup : author.url_picture with
      | none => simp only [hcpy]; exact ⟨trivial, dirExists_fsRmtree _ _⟩
      | some u => simp only [if_true, hcpy]; exact ⟨trivial, dirExists_fsRmtree _ _⟩

/-- Witness: in `envNoCites` the directory is rolled back and the author
reported failed. -/
theorem create_profile_missing_series_rollback_witness :
    (create_profile envNoCites exLink exOut []).2 = Except.ok false ∧
    dirExists (create_profile envNoCites exLink exOut []).1
      (exOut ++ PATH_SEP ++ ({ exAuthor with cites_per_year := none } : AuthorProfile).name)
      = false :=
  create_profile_missing_series_rollback envNoCites exLink exOut
    ("AA".toList) { exAuthor with cites_per_year := none } []
    (by decide) rfl rfl rfl (Or.inr rfl)

/-- Counterexample to claim C5 as stated: this author's profile lacks the
citation series, yet because the picture download fails first,
`create_profile` aborts at the picture step and the just-created directory
is NOT deleted — a persisted directory remains after a returned failure. -/
theorem create_profile_missing_series_dir_remains :
    (create_profile envNoCitesPicFail exLink exOut []).2 = Except.ok false ∧
    dirExists (create_profile envNoCitesPicFail exLink exOut []).1 exDir = true := by decide

/-- No directory exists in the empty tree. -/
theorem dirExists_nil (p : Chars) : dirExists [] p = false := rfl

/-- A directory just created exists. -/
theorem dirExists_fsMkdir (fs : FS) (p : Chars) : dirExists (fsMkdir fs p) p = true := by
  simp [dirExists, fsMkdir]

/-- Writing the picture preserves which directories exist. -/
theorem dirExists_fsSetPicture (fs : FS) (p q : Chars) :
    dirExists (fsSetPicture fs p) q = dirExists fs q := by
  induction fs with
  | nil => rfl
  | cons e fs ih =>
    by_cases h : e.1 = p
    · simp [dirExists, fsSetPicture, h] at ih ⊢
      rw [ih]
    · simp [dirExists, fsSetPicture, h] at ih ⊢
      rw [ih]

/-- Writing the data file preserves which directories exist. -/
theorem dirExists_fsSetData (fs : FS) (p q : Chars) :
    dirExists (fsSetData fs p) q = dirExists fs q := by
  induction fs with
  | nil => rfl
  | cons e fs ih =>
    by_cases h : e.1 = p
    · simp [dirExists, fsSetData, h] at ih ⊢
      rw [ih]
    · simp [dirExists, fsSetData, h] at ih ⊢
      rw [ih]

/-- A non-empty list has a last element. -/
theorem getLast?_isSome_of_ne_nil {α : Type} (l : List α) (h : l ≠ []) :
    ∃ x, l.getLast? = some x := by
  cases hl : l.getLast? with
  | none => exact absurd (List.getLast?_eq_none_iff.mp hl) h
  | some x => exact ⟨x, rfl⟩

/-- Claim C2 (amended): starting from an empty destination tree, with the
author id resolved and the lookup returning `author`: if `create_profile`
returns success, the author directory exists and the citation series was
present and non-empty; if it returns failure, either no directory remains,
or the failure arose in the picture-download step (picture field present,
download failing), which leaves the created directory behind. -/
theorem create_profile_dir_policy (env : Env) (link path id : Chars) (author : AuthorProfile)
    (hid : get_author_id link = Except.ok id)
    (hlk : env.lookup id = Except.ok author) :
    ((create_profile env link path []).2 = Except.ok true →
      dirExists (create_profile env link path []).1 (path ++ PATH_SEP ++ author.name) = true ∧
      ∃ cpy, author.cites_per_year = some cpy ∧ cpy ≠ [])
    ∧ ((create_profile env link path []).2 = Except.ok false →
      (create_profile env link path []).1 = [] ∨
      (author.url_picture.isSome = true ∧ env.picOk = false ∧
        dirExists (create_profile env link path []).1 (path ++ PATH_SEP ++ author.name) = true)) := by
  simp only [create_profile, hid, hlk]
  simp only [new_folder, dirExists_nil, Bool.false_eq_true, if_false]
  by_cases hmk : env.mkdirFails
  · simp only [hmk, if_true]
    constructor
    · intro h
      exact absurd h (by simp)
    · intro _
      exact Or.inl (by trivial)
  · simp only [hmk, Bool.false_eq_true, if_false]
    cases hup : author.url_picture with
    | none =>
      simp only [savePicture, hup]
      cases hcpy : author.cites_per_year with
      | none =>
        constructor
        · intro h
          exact absurd h (by simp)
        · intro _
          refine Or.inl ?_
          simp [fsRmtree, fsMkdir]
      | some cpy =>
        simp only [saveData]
        by_cases hdf : dataFieldsPresent author = true
        · simp only [hdf, if_true]
          cases hlast : cpy.getLast? with
          | none =>
            constructor
            · intro h; exact absurd h (by simp)
            · intro h; exact absurd h (by simp)
          | some x =>
            constructor
            · intro _
              refine ⟨?_, cpy, rfl, ?_⟩
              · show dirExists (fsSetData (fsMkdir [] (path ++ PATH_SEP ++ author.name))
                    (path ++ PATH_SEP ++ author.name)) (path ++ PATH_SEP ++ author.name) = true
                rw [dirExists_fsSetData]
                exact dirExists_fsMkdir [] _
              · intro hnil
                rw [hnil] at hlast
                cases hlast
            · intro h
              exact absurd h (by simp)
        · simp only [hdf, Bool.false_eq_true, if_false]
          constructor
          · intro h; exact absurd h (by simp)
          · intro h; exact absurd h (by simp)
    | some u =>
      simp only [savePicture, hup]
      by_cases hpic : env.picOk
      · simp only [hpic, if_true]
        cases hcpy : author.cites_per_year with
        | none =>
          constructor
          · intro h
            exact absurd h (by simp)
          · intro _
            refine Or.inl ?_
            simp [fsRmtree, fsSetPicture, fsMkdir]
        | some cpy =>
          simp only [saveData]
          by_cases hdf : dataFieldsPresent author = true
          · simp only [hdf, if_true]
            cases hlast : cpy.getLast? with
            | none =>
              constructor
              · intro h; exact absurd h (by simp)
              · intro h; exact absurd h (by simp)
            | some x =>
              constructor
              · intro _
                refine ⟨?_, cpy, rfl, ?_⟩
                · show dirExists (fsSetData (fsSetPicture
                      (fsMkdir [] (path ++ PATH_SEP ++ author.name))
                      (path ++ PATH_SEP ++ author.name)) (path ++ PATH_SEP ++ author.name))
                    (path ++ PATH_SEP ++ author.name) = true
                  rw [dirExists_fsSetData, dirExists_fsSetPicture]
                  exact dirExists_fsMkdir [] _
                · intro hnil
                  rw [hnil] at hlast
                  cases hlast
              · intro h
                exact absurd h (by simp)
          · simp only [hdf, Bool.false_eq_true, if_false]
            constructor
            · intro h; exact absurd h (by simp)
            · intro h; exact absurd h (by simp)
      · simp only [hpic, Bool.false_eq_true, if_false]
        constructor
        · intro h
          exact absurd h (by simp)
        · intro _
          refine Or.inr ⟨by simp [hup], by trivial, ?_⟩
          exact dirExists_fsMkdir [] _

/-- Witness: the fully successful environment produces the directory and a
non-empty series. -/
theorem create_profile_dir_policy_witness :
    ((create_profile envOk exLink exOut []).2 = Except.ok true →
      dirExists (create_profile envOk exLink exOut []).1 (exOut ++ PATH_SEP ++ exAuthor.name)
        = true ∧
      ∃ cpy, exAuthor.cites_per_year = some cpy ∧ cpy ≠ [])
    ∧ ((create_profile envOk exLink exOut []).2 = Except.ok false →
      (create_profile envOk exLink exOut []).1 = [] ∨
      (exAuthor.url_picture.isSome = true ∧ envOk.picOk = false ∧
        dirExists (create_profile envOk exLink exOut []).1 (exOut ++ PATH_SEP ++ exAuthor.name)
          = true)) :=
  create_profile_dir_policy envOk exLink exOut ("AA".toList) exAuthor (by decide) rfl

/-- Counterexample to claim C2 as stated: the picture download fails, the
extraction returns failure, yet the created directory remains on disk —
refuting "a persisted author directory exists iff extraction returned
success with a non-empty citation series". -/
theorem create_profile_picture_failure_leaves_dir :
    (create_profile envPicFail exLink exOut []).2 = Except.ok false ∧
    dirExists (create_profile envPicFail exLink exOut []).1 exDir = true := by decide

/-- Claim C6 (amended): with the lookup succeeding, directory creation
succeeding, all text fields present and a non-empty citation series: an
author lacking only the picture URL field is persisted as a directory with
the text artifact and no image artifact and reported successful; while an
author whose picture download fails for any other reason is reported
failed with the directory left as-is (created, no artifacts written). -/
theorem create_profile_picture_policy (env : Env) (link path id : Chars)
    (author : AuthorProfile) (cpy : List (Int × Int))
    (hid : get_author_id link = Except.ok id)
    (hlk : env.lookup id = Except.ok author)
    (hmk : env.mkdirFails = false)
    (hdf : dataFieldsPresent author = true)
    (hcpy : author.cites_per_year = some cpy)
    (hne : cpy ≠ []) :
    ((author.url_picture = none →
      create_profile env link path [] =
        ([(path ++ PATH_SEP ++ author.name, ⟨false, true⟩)], Except.ok true))
    ∧ (∀ u : Chars, author.url_picture = some u → env.picOk = false →
      create_profile env link path [] =
        ([(path ++ PATH_SEP ++ author.name, ⟨false, false⟩)], Except.ok false))) := by
  obtain ⟨x, hlast⟩ := getLast?_isSome_of_ne_nil cpy hne
  constructor
  · intro hup
    simp only [create_profile, hid, hlk, new_folder, dirExists_nil, Bool.false_eq_true,
      if_false, hmk, savePicture, hup, hcpy, saveData, hdf, if_true, hlast]
    simp [fsMkdir, fsSetData]
  · intro u hup hpic
    simp only [create_profile, hid, hlk, new_folder, dirExists_nil, Bool.false_eq_true,
      if_false, hmk, savePicture, hup, hpic]
    simp [fsMkdir]

/-- Witness: `envNoPic` persists the text artifact only and succeeds. -/
theorem create_profile_picture_policy_witness :
    ((({ exAuthor with url_picture := none } : AuthorProfile).url_picture = none →
      create_profile envNoPic exLink exOut [] =
        ([(exOut ++ PATH_SEP ++ ({ exAuthor with url_picture := none } : AuthorProfile).name,
            ⟨false, true⟩)], Except.ok true))
    ∧ (∀ u : Chars,
        ({ exAuthor with url_picture := none } : AuthorProfile).url_picture = some u →
        envNoPic.picOk = false →
        create_profile envNoPic exLink exOut [] =
          ([(exOut ++ PATH_SEP ++ ({ exAuthor with url_picture := none } : AuthorProfile).name,
              ⟨false, false⟩)], Except.ok false))) :=
  create_profile_picture_policy envNoPic exLink exOut ("AA".toList)
    { exAuthor with url_picture := none } [(2000, 4), (2001, 6)]
    (by decide) rfl rfl rfl rfl (by decide)

/-- Counterexample to claim C6 as stated: an author profile lacking only
the picture URL field, but whose (present) citation series is empty, makes
`create_profile` raise an uncaught `IndexError` at the
years-since-last-citation computation instead of returning success. -/
theorem create_profile_empty_series_raises :
    (create_profile envEmptySeries exLink exOut []).2 = Except.error PyErr.indexError := by
  decide

/-! ### Theorems: Page Extractor error policy (claim C1) -/

/-- If every possible `create_profile` failure on the page's links is the
distinguished not-found failure, the dispatch loop completes the page. -/
theorem load10Go_ok_of_only_fnf (env : Env) (output_dir : Chars) : ∀ (links : List Chars) (st : St),
    (∀ link, link ∈ links → ∀ (fs fs1 : FS) (e : PyErr),
      create_profile env link output_dir fs = (fs1, Except.error e) → e = PyErr.fileNotFound) →
    (load10Go env output_dir links st).2 = Except.ok () := by
  intro links
  induction links with
  | nil => intro st _; rfl
  | cons link rest ih =>
    intro st hcp
    rcases hres : create_profile env link output_dir st.fs with ⟨fs2, r⟩
    cases r with
    | ok b =>
      simp only [load10Go, hres]
      exact ih _ (fun l hl => hcp l (List.mem_cons_of_mem _ hl))
    | error e =>
      have he : e = PyErr.fileNotFound := hcp link (List.mem_cons_self _ _) st.fs fs2 e hres
      subst he
      simp only [load10Go, hres]
      exact ih _ (fun l hl => hcp l (List.mem_cons_of_mem _ hl))

/-- The not-found failure itself never escapes the dispatch loop. -/
theorem load10Go_no_fnf (env : Env) (output_dir : Chars) : ∀ (links : List Chars) (st : St),
    (load10Go env output_dir links st).2 ≠ Except.error PyErr.fileNotFound := by
  intro links
  induction links with
  | nil => intro st h; cases h
  | cons link rest ih =>
    intro st
    rcases hres : create_profile env link output_dir st.fs with ⟨fs2, r⟩
    cases r with
    | ok b =>
      simp only [load10Go, hres]
      exact ih _
    | error e =>
      cases e with
      | fileNotFound =>
        simp only [load10Go, hres]
        exact ih _
      | valueError => simp [load10Go, hres]
      | keyError => simp [load10Go, hres]
      | indexError => simp [load10Go, hres]
      | netError => simp [load10Go, hres]

/-- Claim C1 (amended): at the author-dispatch boundary of the Page
Extractor, only the distinguished not-found failure (`FileNotFoundError`)
is caught and logged — it never propagates, and a page all of whose
per-author failures are of that kind is processed to completion; any other
per-author failure propagates out of the page-level loop (see the
counterexample for a propagating network failure). -/
theorem load_10_researchers_catch_policy (env : Env) (soup output_dir : Chars) (st : St) :
    ((∀ link, link ∈ extractAuthorLinks soup → ∀ (fs fs1 : FS) (e : PyErr),
      create_profile env link output_dir fs = (fs1, Except.error e) → e = PyErr.fileNotFound) →
      (load_10_researchers env soup output_dir st).2 = Except.ok ())
    ∧ (load_10_researchers env soup output_dir st).2 ≠ Except.error PyErr.fileNotFound := by
  constructor
  · intro hcp
    exact load10Go_ok_of_only_fnf env output_dir (extractAuthorLinks soup) st hcp
  · exact load10Go_no_fnf env output_dir (extractAuthorLinks soup) st

/-- Witness: a page with one author whose lookup raises the not-found
failure is still processed to completion. -/
theorem load_10_researchers_catch_policy_witness :
    (load_10_researchers envNotFound soupOneAuthor exOut ⟨[], []⟩).2 = Except.ok () :=
  (load_10_researchers_catch_policy envNotFound soupOneAuthor exOut ⟨[], []⟩).1 (by
    intro link hmem fs fs1 e hres
    have hl : extractAuthorLinks soupOneAuthor = [exAuthorLink] := by decide
    rw [hl] at hmem
    have : link = exAuthorLink := by simpa using hmem
    subst this
    have hcp : create_profile envNotFound exAuthorLink exOut fs
        = (fs, Except.error PyErr.fileNotFound) := rfl
    rw [hcp] at hres
    cases hres
    rfl)

/-- Counterexample to claim C1 as stated: a per-author network failure
raised while fetching the author's profile is NOT caught at the dispatch
boundary — it propagates out of the page-level loop. -/
theorem load_10_researchers_propagates_neterror :
    (load_10_researchers envNetFail soupOneAuthor exOut ⟨[], []⟩).2
      = Except.error PyErr.netError := by decide

/-! ### Theorems: Paginator traces (claims C8 and C9) -/

/-- A completed dispatch loop logs exactly one author event per extracted
link, in order. -/
theorem load10Go_log (env : Env) (output_dir : Chars) : ∀ (links : List Chars) (st st1 : St),
    load10Go env output_dir links st = (st1, Except.ok ()) →
    st1.log = st.log ++ links.map Event.author := by
  intro links
  induction links with
  | nil =>
    intro st st1 h
    simp only [load10Go] at h
    cases h
    simp
  | cons link rest ih =>
    intro st st1 h
    rcases hres : create_profile env link output_dir st.fs with ⟨fs2, r⟩
    cases r with
    | ok b =>
      simp only [load10Go, hres] at h
      simpa using ih _ _ h
    | error e =>
      cases e with
      | fileNotFound =>
        simp only [load10Go, hres] at h
        simpa using ih _ _ h
      | valueError => simp [load10Go, hres] at h
      | keyError => simp [load10Go, hres] at h
      | indexError => simp [load10Go, hres] at h
      | netError => simp [load10Go, hres] at h

/-- A completed load phase of `n` pages logs, for each page in traversal
order, its fetch followed by the dispatch of all its authors. -/
theorem load_n_pages_trace (env : Env) (output_dir : Chars) : ∀ (n : Nat) (url : Chars)
    (st st1 : St),
    load_n_pages env url n output_dir st = (st1, Except.ok ()) →
    ∃ lu : List Chars, lu.length = n ∧ st1.log = st.log ++ (lu.map (loadBlock env)).flatten := by
  intro n
  induction n with
  | zero =>
    intro url st st1 h
    simp only [load_n_pages] at h
    cases h
    exact ⟨[], rfl, by simp⟩
  | succ n ih =>
    intro url st st1 h
    simp only [load_n_pages] at h
    rcases hld : load_10_researchers env (env.fetch url) output_dir
        ⟨st.fs, st.log ++ [Event.fetchLoad url]⟩ with ⟨st2, r⟩
    cases r with
    | error e =>
      rw [hld] at h
      simp at h
    | ok b =>
      rw [hld] at h
      cases hnp : next_page (env.fetch url) with
      | error e =>
        rw [hnp] at h
        simp at h
      | ok url1 =>
        rw [hnp] at h
        obtain ⟨lu, hlen, hlog⟩ := ih url1 st2 st1 h
        have h2 : st2.log = st.log ++ loadBlock env url := by
          have h3 := load10Go_log env output_dir (extractAuthorLinks (env.fetch url))
            ⟨st.fs, st.log ++ [Event.fetchLoad url]⟩ st2 hld
          simpa [loadBlock] using h3
        refine ⟨url :: lu, by simp [hlen], ?_⟩
        rw [hlog, h2]
        simp

/-- Claim C8 (amended loop-bound): a run of `skip_n_pages` that completes
without a propagating error performs exactly `S` skip-phase fetches in
which authors are ignored, followed by exactly `N` load-phase fetches each
followed by the dispatch of every author on that page — `S + N` page
fetches in total.  (As stated the claim also asserted that the fatal
next-page error is the only dynamic termination; the counterexample shows
an uncaught per-author error also terminates the run early.) -/
theorem skip_n_pages_trace (env : Env) (output_dir : Chars) : ∀ (S : Nat) (N : Nat)
    (url : Chars) (st st1 : St),
    skip_n_pages env url S N output_dir st = (st1, Except.ok ()) →
    ∃ su lu : List Chars, su.length = S ∧ lu.length = N ∧
      st1.log = st.log ++ su.map Event.fetchSkip ++ (lu.map (loadBlock env)).flatten := by
  intro S
  induction S with
  | zero =>
    intro N url st st1 h
    simp only [skip_n_pages] at h
    obtain ⟨lu, hlen, hlog⟩ := load_n_pages_trace env output_dir N url st st1 h
    exact ⟨[], lu, rfl, hlen, by simpa using hlog⟩
  | succ S ih =>
    intro N url st st1 h
    simp only [skip_n_pages] at h
    cases hnp : next_page (env.fetch url) with
    | error e =>
      rw [hnp] at h
      simp at h
    | ok url1 =>
      rw [hnp] at h
      obtain ⟨su, lu, hsl, hll, hlog⟩ := ih N url1 ⟨st.fs, st.log ++ [Event.fetchSkip url]⟩ st1 h
      refine ⟨url :: su, lu, by simp [hsl], hll, ?_⟩
      rw [hlog]
      simp

/-- A listing page containing only a usable next-page link and no author
anchors. -/
def pageNextOnly : Chars := "window.location=qafterqtype=\"button\"".toList

/-- Environment whose every page is `pageNextOnly`. -/
def envPaged : Env :=
  { lookup := fun _ => Except.ok exAuthor
    mkdirFails := false
    picOk := true
    fetch := fun _ => pageNextOnly }

/-- A starting url. -/
def urlStart : Chars := "u0".toList

/-- Witness: a skip=1, pages=1 run fetches one skip page then one load
page. -/
theorem skip_n_pages_trace_witness :
    ∃ su lu : List Chars, su.length = 1 ∧ lu.length = 1 ∧
      (St.mk []
          [Event.fetchSkip urlStart,
            Event.fetchLoad ("https://scholar.google.co.ilaft".toList)]).log
        = (St.mk ([] : FS) ([] : List Event)).log ++ su.map Event.fetchSkip
          ++ (lu.map (loadBlock envPaged)).flatten :=
  skip_n_pages_trace envPaged exOut 1 1 urlStart ⟨[], []⟩
    ⟨[], [Event.fetchSkip urlStart,
      Event.fetchLoad ("https://scholar.google.co.ilaft".toList)]⟩ (by decide)

/-- A listing page with one author anchor and a usable next-page link. -/
def pageAuthorAndNext : Chars :=
  "gs_ai_name\"><a href=\"/citations?user=AA\"> window.location=qafterqtype=\"button\"".toList

/-- Environment whose pages are `pageAuthorAndNext` but whose author
lookups raise a network error. -/
def envPageAuthorNet : Env :=
  { lookup := fun _ => Except.error PyErr.netError
    mkdirFails := false
    picOk := true
    fetch := fun _ => pageAuthorAndNext }

/-- Counterexample to claim C8 as stated: with skip=0, pages=2 the run
terminates after a single page fetch with a propagating per-author network
error — not the fatal next-page error, and fewer than S+N fetches. -/
theorem skip_n_pages_author_error_terminates_early :
    (skip_n_pages envPageAuthorNet urlStart 0 2 exOut ⟨[], []⟩).2
        = Except.error PyErr.netError ∧
    (skip_n_pages envPageAuthorNet urlStart 0 2 exOut ⟨[], []⟩).1.log
        = [Event.fetchLoad urlStart, Event.author exAuthorLink] := by decide

/-- Claim C9: the load phase resolves the next-page link on every
iteration, including the final one whose result is never used.  If the
first `k` load iterations complete, the final page's authors are all
processed successfully, and the final page's next-page resolution fails,
then the whole `k+1`-page run returns that error — with the final state
(directories and log) showing every requested page already processed. -/
theorem load_n_pages_final_next_page_error (env : Env) (output_dir : Chars) :
    ∀ (k : Nat) (url : Chars) (st : St) (u : Chars) (stk st2 : St) (e : PyErr),
    loadSteps env output_dir k url st = some (u, stk) →
    load_10_researchers env (env.fetch u) output_dir ⟨stk.fs, stk.log ++ [Event.fetchLoad u]⟩
      = (st2, Except.ok ()) →
    next_page (env.fetch u) = Except.error e →
    load_n_pages env url (k + 1) output_dir st = (st2, Except.error e) := by
  intro k
  induction k with
  | zero =>
    intro url st u stk st2 e hls hld hnp
    simp only [loadSteps] at hls
    obtain ⟨h1, h2⟩ : url = u ∧ st = stk := by
      constructor <;> [exact congrArg Prod.fst (Option.some.inj hls);
        exact congrArg Prod.snd (Option.some.inj hls)]
    subst h1
    subst h2
    simp only [load_n_pages, hld, hnp]
  | succ k ih =>
    intro url st u stk st2 e hls hld hnp
    simp only [loadSteps] at hls
    rcases hld0 : load_10_researchers env (env.fetch url) output_dir
        ⟨st.fs, st.log ++ [Event.fetchLoad url]⟩ with ⟨st2', r⟩
    cases r with
    | error e0 =>
      rw [hld0] at hls
      simp at hls
    | ok b =>
      rw [hld0] at hls
      cases hnp0 : next_page (env.fetch url) with
      | error e0 =>
        rw [hnp0] at hls
        simp at hls
      | ok url1 =>
        rw [hnp0] at hls
        have := ih url1 st2' u stk st2 e hls hld hnp
        simp only [load_n_pages, hld0, hnp0]
        exact this

/-- A listing page with one author anchor and no next-page link at all. -/
def pageAuthorNoNext : Chars :=
  "gs_ai_name\"><a href=\"/citations?user=AA\"> no pagination".toList

/-- Environment whose single page is `pageAuthorNoNext` and whose author
lookups succeed fully. -/
def envLastPage : Env :=
  { lookup := fun _ => Except.ok exAuthor
    mkdirFails := false
    picOk := true
    fetch := fun _ => pageAuthorNoNext }

/-- Witness: requesting exactly one page whose author is processed and
persisted still ends in the fatal next-page `ValueError`. -/
theorem load_n_pages_final_next_page_error_witness :
    load_n_pages envLastPage urlStart 1 exOut ⟨[], []⟩
      = (⟨[(exDir, ⟨true, true⟩)],
          [Event.fetchLoad urlStart, Event.author exAuthorLink]⟩,
        Except.error PyErr.valueError) :=
  load_n_pages_final_next_page_error envLastPage exOut 0 urlStart ⟨[], []⟩ urlStart ⟨[], []⟩
    ⟨[(exDir, ⟨true, true⟩)], [Event.fetchLoad urlStart, Event.author exAuthorLink]⟩
    PyErr.valueError rfl (by decide) (by decide)
